import Mathlib

/-!
Verification of the FAIRGAME public-goods components.

Shallow embedding of:
* `src/src/public_goods_payoff_matrix.py` (`PublicGoodsPayoffMatrix`)
* `src/src/llm_connectors/anthropic_connector.py`,
  `openai_connector.py`, `mistral_connector.py` (retrying connectors)

Python floats are modelled as rationals (all arithmetic involved is exact on
the inputs considered); a Python exception is modelled by `Option`/`Except`
error values.  Definitions come first, theorems after.
-/

namespace FairGame

/-! ## Payoff matrix (`public_goods_payoff_matrix.py`) -/

/-- Modelled from the spec: the parent `PayoffMatrix.__init__` (file
`src/payoff_matrix.py`, not under `src/`) stores the per-language strategy
dictionary `strategies : key ↦ display name`; here it is carried as an
association list in insertion order. -/
structure PublicGoodsPayoffMatrix where
  strategies : List (String × String)
  contribution_cost : ℚ
  multiplication_factor : ℚ
  num_agents : ℕ
deriving Repr, DecidableEq

/-- The `public_goods_config` dict handed to the constructor. -/
structure PublicGoodsConfig where
  contributionCost : ℚ
  multiplicationFactor : ℚ
  numAgents : ℕ
deriving Repr, DecidableEq

/-- Constructor `PublicGoodsPayoffMatrix.__init__` (src lines 16-31): stores the three
configuration values unchecked.  The `Except` error channel records any
exception raised during construction; the Python constructor performs no
validation, so the result is always `.ok`. -/
def PublicGoodsPayoffMatrix.init (strategies : List (String × String))
    (cfg : PublicGoodsConfig) : Except String PublicGoodsPayoffMatrix :=
  .ok ⟨strategies, cfg.contributionCost, cfg.multiplicationFactor, cfg.numAgents⟩

/-- Method `calculate_payoff` (src lines 33-49).  Python raises `ZeroDivisionError`
when `num_agents = 0` (the division `pool_value / self.num_agents` is executed
unconditionally), modelled as `none`. -/
def PublicGoodsPayoffMatrix.calculate_payoff (M : PublicGoodsPayoffMatrix)
    (agent_contributed : Bool) (num_contributors : ℕ) : Option ℚ :=
  if M.num_agents = 0 then none
  else
    let total_contributions : ℚ := num_contributors * M.contribution_cost
    let pool_value : ℚ := total_contributions * M.multiplication_factor
    let equal_share : ℚ := pool_value / M.num_agents
    let individual_cost : ℚ := if agent_contributed then M.contribution_cost else 0
    some (equal_share - individual_cost)

/-- The value `calculate_payoff` returns in the non-error case. -/
def PublicGoodsPayoffMatrix.payoff_value (M : PublicGoodsPayoffMatrix)
    (agent_contributed : Bool) (num_contributors : ℕ) : ℚ :=
  (num_contributors * M.contribution_cost * M.multiplication_factor) / M.num_agents
    - (if agent_contributed then M.contribution_cost else 0)

/-- An agent, modelled by its score history.  Modelled from the spec:
`src/agent.py` is not under `src/`; per the spec an agent's cumulative score
history is an ordered sequence, and `add_score` appends one payoff to it. -/
abbrev Agent := List ℚ

/-- The `for agent, strategy in zip(agents, round_strategies)` loop of
`attribute_scores` (src lines 66-69): `zip` stops at the shorter list, agents
beyond it are left untouched. -/
def addScoresLoop (M : PublicGoodsPayoffMatrix) (c : ℕ) :
    List Agent → List String → Option (List Agent)
  | [], _ => some []
  | a :: as, [] => some (a :: as)
  | a :: as, s :: ss => do
      let p ← M.calculate_payoff (s == "strategy1") c
      let rest ← addScoresLoop M c as ss
      pure ((a ++ [p]) :: rest)

/-- Method `attribute_scores` (src lines 51-69): counts contributors over the whole
`round_strategies` list of strategy keys, then appends one payoff to each
zipped agent's score history. -/
def PublicGoodsPayoffMatrix.attribute_scores (M : PublicGoodsPayoffMatrix)
    (agents : List Agent) (round_strategies : List String) : Option (List Agent) :=
  let num_contributors := round_strategies.count "strategy1"
  addScoresLoop M num_contributors agents round_strategies

/-- The dict comprehension `name_to_key = \x7bname: key for key, name in
self.strategies.items()\x7d` followed by `.get(strategy_name)` (src lines
81-82): the key of the last entry whose display name matches (later dict
entries overwrite earlier ones), or `none` for an unknown name. -/
def nameToKey (strategies : List (String × String)) (name : String) : Option String :=
  (strategies.reverse.find? (fun p => p.2 == name)).map (fun p => p.1)

/-- The payoff-accumulation loop of `get_weights_for_combination`
(src lines 87-91). -/
def weightsLoop (M : PublicGoodsPayoffMatrix) (c : ℕ) :
    List (Option String) → Option (List ℚ)
  | [] => some []
  | key :: keys => do
      let p ← M.calculate_payoff (key == some "strategy1") c
      let rest ← weightsLoop M c keys
      pure (p :: rest)

/-- Method `get_weights_for_combination` (src lines 71-93): maps names to keys
(unknown names become `none`), counts keys equal to `strategy1`, and computes
one payoff per entry. -/
def PublicGoodsPayoffMatrix.get_weights_for_combination (M : PublicGoodsPayoffMatrix)
    (strategy_list : List String) : Option (List ℚ) :=
  let key_list := strategy_list.map (nameToKey M.strategies)
  let num_contributors := key_list.count (some "strategy1")
  weightsLoop M num_contributors key_list

/-- Method `get_combination_key` (src lines 95-107): a key determined by the number
of `strategy1` entries of `round_strategies` alone. -/
def PublicGoodsPayoffMatrix.get_combination_key (_M : PublicGoodsPayoffMatrix)
    (round_strategies : List String) : String :=
  let num_contributors := round_strategies.count "strategy1"
  "combination_" ++ toString num_contributors ++ "_contributors"

/-- The strategy dictionary of the unit tests (`matrix_data.strategies.en`). -/
def enStrategies : List (String × String) :=
  [("strategy1", "Contribute"), ("strategy2", "Free-ride")]

/-- The payoff matrix of the unit tests: `k = 10`, `m = 2.0`, `n = 4`. -/
def testMatrix : PublicGoodsPayoffMatrix :=
  ⟨enStrategies, 10, 2, 4⟩

/-! ## Connectors (`llm_connectors/*.py`)

Each `send_prompt` loops `for attempt in range(self.max_retries)` around an
API call; the outcome of the call at each attempt is supplied as a script
`ℕ → outcome`.  A rate-limit outcome sleeps `retry_delay * 2 ** attempt`
before the next attempt, the other transient outcomes sleep `retry_delay`,
any other exception is re-raised at once; on the last attempt every failure is
re-raised.  The model records the result and the list of sleep durations. -/

/-- How one API-call outcome is handled by the retry loop. -/
inductive Outcome where
  /-- The call returned this response text. -/
  | ok (text : String)
  /-- A failure retried with exponential backoff (rate limit). -/
  | backoffErr
  /-- A failure retried with the constant delay. -/
  | constErr
  /-- A failure re-raised immediately. -/
  | fatalErr
deriving Repr, DecidableEq

/-- Whether the retry loop treats this outcome as a retryable failure. -/
def Outcome.isTransient : Outcome → Bool
  | .backoffErr => true
  | .constErr => true
  | _ => false

/-- Result of a whole `send_prompt` call: a returned string, a re-raised
exception, or the implicit `None` returned when `max_retries = 0` makes the
`for` loop body never run. -/
inductive SendResult where
  | success (text : String)
  | raised (e : Outcome)
  | noneReturned
deriving Repr, DecidableEq

/-- The retry loop, from attempt number `a` with `r` attempts remaining
(`r = max_retries - a`); the branch conditions `attempt < self.max_retries - 1`
become `r ≠ 1`.  Returns the result and the sleep durations in order. -/
def sendLoop (d : ℚ) (script : ℕ → Outcome) : ℕ → ℕ → SendResult × List ℚ
  | _, 0 => (.noneReturned, [])
  | a, r + 1 =>
    match script a with
    | .ok s => (.success s, [])
    | .backoffErr =>
        if r = 0 then (.raised .backoffErr, [])
        else ((sendLoop d script (a + 1) r).1,
              d * 2 ^ a :: (sendLoop d script (a + 1) r).2)
    | .constErr =>
        if r = 0 then (.raised .constErr, [])
        else ((sendLoop d script (a + 1) r).1,
              d :: (sendLoop d script (a + 1) r).2)
    | .fatalErr => (.raised .fatalErr, [])

/-- The exception classes of `anthropic_connector.py` (same classes in
`openai_connector.py`): `RateLimitError`, `APIError`, `APITimeoutError`, and
any other exception. -/
inductive AnthropicOutcome where
  | ok (text : String)
  | rateLimitError
  | apiError
  | apiTimeoutError
  | otherException
deriving Repr, DecidableEq

/-- Which retry class each `except` arm of `anthropic_connector.send_prompt`
(src lines 32-53) gives an outcome. -/
def AnthropicOutcome.classify : AnthropicOutcome → Outcome
  | .ok s => .ok s
  | .rateLimitError => .backoffErr
  | .apiError => .constErr
  | .apiTimeoutError => .constErr
  | .otherException => .fatalErr

/-- Method `AnthropicConnector.send_prompt` (src lines 22-53), with the API call at
attempt `n` producing `api n`. -/
def AnthropicConnector.send_prompt (max_retries : ℕ) (retry_delay : ℚ)
    (api : ℕ → AnthropicOutcome) : SendResult × List ℚ :=
  sendLoop retry_delay (fun n => (api n).classify) 0 max_retries

/-- The exception classes of `openai_connector.py`, identical to the
Anthropic ones. -/
inductive OpenAIOutcome where
  | ok (text : String)
  | rateLimitError
  | apiError
  | apiTimeoutError
  | otherException
deriving Repr, DecidableEq

/-- Which retry class each `except` arm of `openai_connector.send_prompt`
(src lines 34-55) gives an outcome. -/
def OpenAIOutcome.classify : OpenAIOutcome → Outcome
  | .ok s => .ok s
  | .rateLimitError => .backoffErr
  | .apiError => .constErr
  | .apiTimeoutError => .constErr
  | .otherException => .fatalErr

/-- Method `OpenAIConnector.send_prompt` (src lines 22-55). -/
def OpenAIConnector.send_prompt (max_retries : ℕ) (retry_delay : ℚ)
    (api : ℕ → OpenAIOutcome) : SendResult × List ℚ :=
  sendLoop retry_delay (fun n => (api n).classify) 0 max_retries

/-- The exception classes of `mistral_connector.py`: `HTTPError` (carrying
its response status code), `Timeout`, `ConnectionError`, other. -/
inductive MistralOutcome where
  | ok (text : String)
  | httpError (status : ℕ)
  | timeoutError
  | connectionError
  | otherException
deriving Repr, DecidableEq

/-- Which retry class each `except` arm of `mistral_connector.send_prompt`
(src lines 32-63) gives an outcome: an `HTTPError` with status 429 gets
exponential backoff, other `HTTPError`s and `Timeout`/`ConnectionError` the
constant delay, anything else is re-raised. -/
def MistralOutcome.classify : MistralOutcome → Outcome
  | .ok s => .ok s
  | .httpError status => if status = 429 then .backoffErr else .constErr
  | .timeoutError => .constErr
  | .connectionError => .constErr
  | .otherException => .fatalErr

/-- Method `MistralConnector.send_prompt` (src lines 23-63). -/
def MistralConnector.send_prompt (max_retries : ℕ) (retry_delay : ℚ)
    (api : ℕ → MistralOutcome) : SendResult × List ℚ :=
  sendLoop retry_delay (fun n => (api n).classify) 0 max_retries

/-- Error raised by a connector constructor. -/
inductive ConnectorInitError where
  /-- Python `EnvironmentError` — the spec's `AuthenticationError`: the
  provider credential is absent (or empty, which Python's `if not
  self.api_key` also rejects). -/
  | environmentError (msg : String)
deriving Repr, DecidableEq

/-- A constructed connector: the credential and model it stored. -/
structure ConnectorState where
  api_key : String
  provider_model : String
deriving Repr, DecidableEq

/-- Constructor `AnthropicConnector.__init__` (src lines 12-20): reads
`API_KEY_ANTHROPIC` from the environment `env` and fails before any client is
built when it is absent or empty. -/
def AnthropicConnector.init (env : String → Option String)
    (provider_model : String) : Except ConnectorInitError ConnectorState :=
  match env "API_KEY_ANTHROPIC" with
  | none => .error (.environmentError "API_KEY_ANTHROPIC not found in environment variables.")
  | some key =>
      if key = "" then
        .error (.environmentError "API_KEY_ANTHROPIC not found in environment variables.")
      else .ok ⟨key, provider_model⟩

/-- Constructor `OpenAIConnector.__init__` (src lines 12-20): reads `API_KEY_OPENAI`. -/
def OpenAIConnector.init (env : String → Option String)
    (provider_model : String) : Except ConnectorInitError ConnectorState :=
  match env "API_KEY_OPENAI" with
  | none => .error (.environmentError "API_KEY_OPENAI not found in environment variables.")
  | some key =>
      if key = "" then
        .error (.environmentError "API_KEY_OPENAI not found in environment variables.")
      else .ok ⟨key, provider_model⟩

/-- Constructor `MistralConnector.__init__` (src lines 14-21): reads `API_KEY_MISTRAL`. -/
def MistralConnector.init (env : String → Option String)
    (provider_model : String) : Except ConnectorInitError ConnectorState :=
  match env "API_KEY_MISTRAL" with
  | none => .error (.environmentError "API_KEY_MISTRAL not found in environment variables.")
  | some key =>
      if key = "" then
        .error (.environmentError "API_KEY_MISTRAL not found in environment variables.")
      else .ok ⟨key, provider_model⟩

end FairGame

namespace FairGame

/-! ## Helper lemmas -/

theorem calculate_payoff_eq (M : PublicGoodsPayoffMatrix)
    (hn : M.num_agents ≠ 0) (b : Bool) (c : ℕ) :
    M.calculate_payoff b c = some (M.payoff_value b c) := by
  simp [PublicGoodsPayoffMatrix.calculate_payoff, PublicGoodsPayoffMatrix.payoff_value, hn]

theorem weightsLoop_eq (M : PublicGoodsPayoffMatrix) (hn : M.num_agents ≠ 0) (c : ℕ) :
    ∀ keys : List (Option String),
      weightsLoop M c keys
        = some (keys.map (fun key => M.payoff_value (key == some "strategy1") c))
  | [] => by simp [weightsLoop]
  | key :: keys => by
      simp [weightsLoop, calculate_payoff_eq M hn, weightsLoop_eq M hn c keys]

theorem get_weights_eq (M : PublicGoodsPayoffMatrix) (hn : M.num_agents ≠ 0)
    (sl : List String) :
    M.get_weights_for_combination sl
      = some ((sl.map (nameToKey M.strategies)).map
          (fun key => M.payoff_value (key == some "strategy1")
            ((sl.map (nameToKey M.strategies)).count (some "strategy1")))) := by
  simp [PublicGoodsPayoffMatrix.get_weights_for_combination, weightsLoop_eq M hn]

theorem share_sum (S k : ℚ) :
    ∀ keys : List (Option String),
      (keys.map (fun key => S - if (key == some "strategy1") then k else 0)).sum
        = (keys.length : ℚ) * S - (keys.count (some "strategy1") : ℚ) * k
  | [] => by simp
  | key :: keys => by
      have ih := share_sum S k keys
      simp only [List.map_cons, List.sum_cons, List.count_cons]
      rw [ih]
      by_cases h : key = some "strategy1"
      · simp [h]
        ring
      · simp [h]
        ring

theorem addScoresLoop_eq (M : PublicGoodsPayoffMatrix) (hn : M.num_agents ≠ 0) (c : ℕ) :
    ∀ (agents : List Agent) (rs : List String),
      addScoresLoop M c agents rs
        = some (List.zipWith
            (fun a s => a ++ [M.payoff_value (s == "strategy1") c]) agents rs
            ++ agents.drop rs.length)
  | [], rs => by simp [addScoresLoop]
  | a :: as, [] => by simp [addScoresLoop]
  | a :: as, s :: ss => by
      simp [addScoresLoop, calculate_payoff_eq M hn, addScoresLoop_eq M hn c as ss]

theorem sendLoop_success (d : ℚ) (script : ℕ → Outcome) :
    ∀ (j a r : ℕ), j < r →
      (∀ i, i < j → (script (a + i)).isTransient = true) →
      ∀ s, script (a + j) = .ok s →
      (sendLoop d script a r).1 = .success s := by
  intro j
  induction j with
  | zero =>
      intro a r hr htrans s hok
      cases r with
      | zero => omega
      | succ r =>
          rw [Nat.add_zero] at hok
          simp only [sendLoop]
          rw [hok]
  | succ j ih =>
      intro a r hr htrans s hok
      cases r with
      | zero => omega
      | succ r =>
          have h0 := htrans 0 (Nat.succ_pos j)
          rw [Nat.add_zero] at h0
          have hrj : j < r := by omega
          have hrne : r ≠ 0 := by omega
          have htrans2 : ∀ i, i < j → (script (a + 1 + i)).isTransient = true := by
            intro i hi
            have h := htrans (i + 1) (by omega)
            rwa [show a + (i + 1) = a + 1 + i by omega] at h
          have hok2 : script (a + 1 + j) = .ok s := by
            rwa [show a + (j + 1) = a + 1 + j by omega] at hok
          simp only [sendLoop]
          cases hs : script a with
          | ok t => rw [hs] at h0; simp [Outcome.isTransient] at h0
          | fatalErr => rw [hs] at h0; simp [Outcome.isTransient] at h0
          | backoffErr =>
              simp only [hs, hrne, if_false, reduceCtorEq, reduceIte]
              exact ih (a + 1) r hrj htrans2 s hok2
          | constErr =>
              simp only [hs, hrne, if_false, reduceCtorEq, reduceIte]
              exact ih (a + 1) r hrj htrans2 s hok2

theorem sendLoop_exhaust (d : ℚ) (script : ℕ → Outcome) :
    ∀ (r a : ℕ), 0 < r →
      (∀ i, i < r → (script (a + i)).isTransient = true) →
      (sendLoop d script a r).1 = .raised (script (a + (r - 1)))
        ∧ (sendLoop d script a r).2.length = r - 1 := by
  intro r
  induction r with
  | zero => intro a h; omega
  | succ r ih =>
      intro a _ htrans
      have h0 := htrans 0 (Nat.succ_pos r)
      rw [Nat.add_zero] at h0
      simp only [sendLoop, Nat.add_sub_cancel]
      cases hs : script a with
      | ok t => rw [hs] at h0; simp [Outcome.isTransient] at h0
      | fatalErr => rw [hs] at h0; simp [Outcome.isTransient] at h0
      | backoffErr =>
          by_cases hr : r = 0
          · subst hr
            simp [hs]
          · have hpos : 0 < r := Nat.pos_of_ne_zero hr
            have htrans2 : ∀ i, i < r → (script (a + 1 + i)).isTransient = true := by
              intro i hi
              have h := htrans (i + 1) (by omega)
              rwa [show a + (i + 1) = a + 1 + i by omega] at h
            have ihr := ih (a + 1) hpos htrans2
            simp only [hs, hr, if_false, List.length_cons]
            refine ⟨?_, ?_⟩
            · rw [ihr.1]
              congr 2
              omega
            · rw [ihr.2]
              omega
      | constErr =>
          by_cases hr : r = 0
          · subst hr
            simp [hs]
          · have hpos : 0 < r := Nat.pos_of_ne_zero hr
            have htrans2 : ∀ i, i < r → (script (a + 1 + i)).isTransient = true := by
              intro i hi
              have h := htrans (i + 1) (by omega)
              rwa [show a + (i + 1) = a + 1 + i by omega] at h
            have ihr := ih (a + 1) hpos htrans2
            simp only [hs, hr, if_false, List.length_cons]
            refine ⟨?_, ?_⟩
            · rw [ihr.1]
              congr 2
              omega
            · rw [ihr.2]
              omega

theorem sendLoop_sleep_formula (d : ℚ) (script : ℕ → Outcome) :
    ∀ (k a r : ℕ), k + 1 < r →
      (∀ i, i ≤ k → (script (a + i)).isTransient = true) →
      (sendLoop d script a r).2[k]?
        = some (if script (a + k) = .backoffErr then d * 2 ^ (a + k) else d) := by
  intro k
  induction k with
  | zero =>
      intro a r hk htrans
      cases r with
      | zero => omega
      | succ r =>
          have hrne : r ≠ 0 := by omega
          have h0 := htrans 0 (Nat.le_refl 0)
          rw [Nat.add_zero] at h0
          rw [Nat.add_zero]
          simp only [sendLoop]
          cases hs : script a with
          | ok t => rw [hs] at h0; simp [Outcome.isTransient] at h0
          | fatalErr => rw [hs] at h0; simp [Outcome.isTransient] at h0
          | backoffErr => simp [hs, hrne]
          | constErr => simp [hs, hrne]
  | succ k ih =>
      intro a r hk htrans
      cases r with
      | zero => omega
      | succ r =>
          have hrne : r ≠ 0 := by omega
          have h0 := htrans 0 (Nat.zero_le _)
          rw [Nat.add_zero] at h0
          have htrans2 : ∀ i, i ≤ k → (script (a + 1 + i)).isTransient = true := by
            intro i hi
            have h := htrans (i + 1) (by omega)
            rwa [show a + (i + 1) = a + 1 + i by omega] at h
          have ihk := ih (a + 1) r (by omega) htrans2
          rw [show a + (k + 1) = a + 1 + k by omega]
          simp only [sendLoop]
          cases hs : script a with
          | ok t => rw [hs] at h0; simp [Outcome.isTransient] at h0
          | fatalErr => rw [hs] at h0; simp [Outcome.isTransient] at h0
          | backoffErr => simpa [hs, hrne] using ihk
          | constErr => simpa [hs, hrne] using ihk

/-! ## Claims -/

/-- C1: `calculate_payoff` returns `(c*k*m)/n - k` for a contributor and
`(c*k*m)/n` for a free-rider, and at `n=4, k=10, m=2.0`: a solo contributor
gets `-5`, a free-rider facing one contributor gets `5`, and a non-contributor
with zero contributors gets `0`. -/
theorem calculate_payoff_formula (strategies : List (String × String))
    (k m : ℚ) (n : ℕ) (hn : n ≠ 0) (contributed : Bool) (c : ℕ) :
    (PublicGoodsPayoffMatrix.mk strategies k m n).calculate_payoff contributed c
        = some ((c * k * m) / n - if contributed then k else 0)
      ∧ testMatrix.calculate_payoff true 1 = some (-5)
      ∧ testMatrix.calculate_payoff false 1 = some 5
      ∧ testMatrix.calculate_payoff false 0 = some 0 := by
  refine ⟨?_, ?_, ?_, ?_⟩
  · simp [PublicGoodsPayoffMatrix.calculate_payoff, hn]
  · norm_num [testMatrix, PublicGoodsPayoffMatrix.calculate_payoff]
  · norm_num [testMatrix, PublicGoodsPayoffMatrix.calculate_payoff]
  · norm_num [testMatrix, PublicGoodsPayoffMatrix.calculate_payoff]

/-- C1 witness: the formula evaluated at the unit-test parameters. -/
theorem calculate_payoff_formula_witness :
    testMatrix.calculate_payoff true 1 = some ((1 * 10 * 2) / 4 - 10)
      ∧ testMatrix.calculate_payoff true 1 = some (-5)
      ∧ testMatrix.calculate_payoff false 1 = some 5
      ∧ testMatrix.calculate_payoff false 0 = some 0 := by
  have h := calculate_payoff_formula enStrategies 10 2 4 (by decide) true 1
  exact ⟨by simpa using h.1, h.2.1, h.2.2.1, h.2.2.2⟩

/-- C2: in a round whose choice list has length `num_agents`, the payoffs
returned by `get_weights_for_combination` sum to `c * k * (m - 1)` where `c`
is the number of entries mapped to the `strategy1` key. -/
theorem payoff_conservation (M : PublicGoodsPayoffMatrix) (sl : List String)
    (hn : M.num_agents ≠ 0) (hlen : sl.length = M.num_agents) :
    ∃ ps, M.get_weights_for_combination sl = some ps
      ∧ ps.sum = ((sl.map (nameToKey M.strategies)).count (some "strategy1") : ℚ)
          * M.contribution_cost * (M.multiplication_factor - 1) := by
  refine ⟨_, get_weights_eq M hn sl, ?_⟩
  have hkeys : (sl.map (nameToKey M.strategies)).length = M.num_agents := by
    simpa using hlen
  have hsum := share_sum
    ((((sl.map (nameToKey M.strategies)).count (some "strategy1") : ℚ)
        * M.contribution_cost * M.multiplication_factor) / M.num_agents)
    M.contribution_cost (sl.map (nameToKey M.strategies))
  have hnq : (M.num_agents : ℚ) ≠ 0 := Nat.cast_ne_zero.mpr hn
  rw [show (fun key => M.payoff_value (key == some "strategy1")
        ((sl.map (nameToKey M.strategies)).count (some "strategy1")))
      = (fun key : Option String =>
          (((sl.map (nameToKey M.strategies)).count (some "strategy1") : ℚ)
              * M.contribution_cost * M.multiplication_factor) / M.num_agents
            - if (key == some "strategy1") then M.contribution_cost else 0)
    from funext fun key => by simp [PublicGoodsPayoffMatrix.payoff_value]]
  rw [hsum, hkeys]
  field_simp
  ring

/-- C2 witness: the unit-test matrix with two contributors and two
free-riders; the payoffs sum to `2 * 10 * (2 - 1) = 20`. -/
theorem payoff_conservation_witness :
    ∃ ps, testMatrix.get_weights_for_combination
        ["Contribute", "Contribute", "Free-ride", "Free-ride"] = some ps
      ∧ ps.sum = (((["Contribute", "Contribute", "Free-ride", "Free-ride"].map
            (nameToKey testMatrix.strategies)).count (some "strategy1")) : ℚ)
          * testMatrix.contribution_cost * (testMatrix.multiplication_factor - 1) :=
  payoff_conservation testMatrix ["Contribute", "Contribute", "Free-ride", "Free-ride"]
    (by decide) (by decide)

/-- C5: with equally long agent and choice lists, `attribute_scores` appends
exactly one payoff to each agent's history, the `i`-th computed from the
`i`-th choice; `get_weights_for_combination` returns one payoff per input
entry, order-aligned with the input list. -/
theorem scores_order_aligned (M : PublicGoodsPayoffMatrix)
    (agents : List Agent) (rs : List String)
    (hn : M.num_agents ≠ 0) (hlen : agents.length = rs.length) :
    (∃ out, M.attribute_scores agents rs = some out
      ∧ out = List.zipWith
          (fun a s => a ++ [M.payoff_value (s == "strategy1") (rs.count "strategy1")])
          agents rs
      ∧ out.length = agents.length)
    ∧ ∀ sl : List String, ∃ ps, M.get_weights_for_combination sl = some ps
      ∧ ps = sl.map (fun name =>
          M.payoff_value ((nameToKey M.strategies name) == some "strategy1")
            ((sl.map (nameToKey M.strategies)).count (some "strategy1")))
      ∧ ps.length = sl.length := by
  constructor
  · have h := addScoresLoop_eq M hn (rs.count "strategy1") agents rs
    have hdrop : agents.drop rs.length = [] := by
      rw [← hlen]
      exact List.drop_length agents
    refine ⟨_, h, ?_, ?_⟩
    · rw [hdrop, List.append_nil]
    · simp [hdrop, hlen]
  · intro sl
    refine ⟨_, get_weights_eq M hn sl, ?_, ?_⟩
    · simp [List.map_map, Function.comp]
    · simp

/-- C5 witness: the unit-test round with three contributors and one
free-rider over four empty score histories. -/
theorem scores_order_aligned_witness :
    (∃ out, testMatrix.attribute_scores [[], [], [], []]
        ["strategy1", "strategy1", "strategy1", "strategy2"] = some out
      ∧ out = List.zipWith
          (fun a s => a ++ [testMatrix.payoff_value (s == "strategy1")
            (["strategy1", "strategy1", "strategy1", "strategy2"].count "strategy1")])
          [[], [], [], []] ["strategy1", "strategy1", "strategy1", "strategy2"]
      ∧ out.length = ([[], [], [], []] : List Agent).length)
    ∧ ∀ sl : List String, ∃ ps, testMatrix.get_weights_for_combination sl = some ps
      ∧ ps = sl.map (fun name =>
          testMatrix.payoff_value ((nameToKey testMatrix.strategies name) == some "strategy1")
            ((sl.map (nameToKey testMatrix.strategies)).count (some "strategy1")))
      ∧ ps.length = sl.length :=
  scores_order_aligned testMatrix [[], [], [], []]
    ["strategy1", "strategy1", "strategy1", "strategy2"] (by decide) rfl

/-- C10: with lists of different lengths, `attribute_scores` raises no error:
it scores exactly the zipped prefix (the contributor count still taken over
the whole choice list), returns one history per agent, and leaves the history
of every agent at or beyond the choice-list length unchanged. -/
theorem attribute_scores_truncates (M : PublicGoodsPayoffMatrix)
    (agents : List Agent) (rs : List String) (hn : M.num_agents ≠ 0) :
    ∃ out, M.attribute_scores agents rs = some out
      ∧ out = List.zipWith
          (fun a s => a ++ [M.payoff_value (s == "strategy1") (rs.count "strategy1")])
          agents rs ++ agents.drop rs.length
      ∧ out.length = agents.length
      ∧ ∀ i, rs.length ≤ i → out[i]? = agents[i]? := by
  have h := addScoresLoop_eq M hn (rs.count "strategy1") agents rs
  refine ⟨_, h, rfl, ?_, ?_⟩
  · simp only [List.length_append, List.length_zipWith, List.length_drop]
    omega
  · intro i hi
    by_cases hcase : i < agents.length
    · rw [List.getElem?_append_right (by simp only [List.length_zipWith]; omega)]
      rw [List.getElem?_drop]
      congr 1
      simp only [List.length_zipWith]
      omega
    · have h2 : agents[i]? = none := List.getElem?_eq_none (by omega)
      rw [h2]
      refine List.getElem?_eq_none ?_
      simp only [List.length_append, List.length_zipWith, List.length_drop]
      omega

/-- C10 witness: two agents, one choice — the first agent is scored as a solo
contributor, the second keeps its empty history. -/
theorem attribute_scores_truncates_witness :
    ∃ out, testMatrix.attribute_scores [[], []] ["strategy1"] = some out
      ∧ out = List.zipWith
          (fun a s => a ++ [testMatrix.payoff_value (s == "strategy1")
            (["strategy1"].count "strategy1")])
          [[], []] ["strategy1"] ++ ([[], []] : List Agent).drop ["strategy1"].length
      ∧ out.length = ([[], []] : List Agent).length
      ∧ ∀ i, ["strategy1"].length ≤ i → out[i]? = ([[], []] : List Agent)[i]? :=
  attribute_scores_truncates testMatrix [[], []] ["strategy1"] (by decide)

/-- C9: `get_weights_for_combination` never fails on an unrecognized strategy
name: the name maps to no key, is not counted as a contributor, and its
payoff is the free-rider share `(c*k*m)/n`. -/
theorem unknown_name_free_rides (M : PublicGoodsPayoffMatrix) (sl : List String)
    (hn : M.num_agents ≠ 0) (i : ℕ) (hi : i < sl.length)
    (hunk : nameToKey M.strategies (sl.get ⟨i, hi⟩) = none) :
    ∃ ps, M.get_weights_for_combination sl = some ps
      ∧ ps[i]? = some ((((sl.map (nameToKey M.strategies)).count (some "strategy1") : ℚ)
          * M.contribution_cost * M.multiplication_factor) / M.num_agents) := by
  refine ⟨_, get_weights_eq M hn sl, ?_⟩
  have hunk2 : nameToKey M.strategies sl[i] = none := by simpa using hunk
  simp [List.getElem?_map, List.getElem?_eq_getElem hi, hunk2,
    PublicGoodsPayoffMatrix.payoff_value]

/-- C9 witness: the name `Mystery` is not a configured strategy of the
unit-test matrix; in a round with one contributor it receives the share
`(1*10*2)/4`. -/
theorem unknown_name_free_rides_witness :
    ∃ ps, testMatrix.get_weights_for_combination ["Contribute", "Mystery"] = some ps
      ∧ ps[1]? = some ((((["Contribute", "Mystery"].map
            (nameToKey testMatrix.strategies)).count (some "strategy1") : ℚ))
          * testMatrix.contribution_cost * testMatrix.multiplication_factor
          / testMatrix.num_agents) :=
  unknown_name_free_rides testMatrix ["Contribute", "Mystery"] (by decide) 1
    (by decide) (by decide)

/-- C7: `get_combination_key` depends only on the number of `strategy1`
entries of the choice list, hence is invariant under every permutation of the
list. -/
theorem combination_key_count_based (M : PublicGoodsPayoffMatrix)
    (l1 l2 : List String) :
    (l1.Perm l2 → M.get_combination_key l1 = M.get_combination_key l2)
    ∧ (l1.count "strategy1" = l2.count "strategy1" →
        M.get_combination_key l1 = M.get_combination_key l2) := by
  constructor
  · intro hperm
    simp [PublicGoodsPayoffMatrix.get_combination_key, hperm.count_eq]
  · intro hcount
    simp [PublicGoodsPayoffMatrix.get_combination_key, hcount]

/-- C7 witness: swapping the two strategies leaves the key unchanged. -/
theorem combination_key_count_based_witness :
    testMatrix.get_combination_key ["strategy1", "strategy2"]
      = testMatrix.get_combination_key ["strategy2", "strategy1"] :=
  (combination_key_count_based testMatrix ["strategy1", "strategy2"]
    ["strategy2", "strategy1"]).2 (by decide)

/-- C4 counterexample: a configuration with `numAgents = 0` is accepted by
the constructor (no error is raised), and the division by `num_agents` then
fails at payoff time instead. -/
theorem init_no_validation_counterexample :
    PublicGoodsPayoffMatrix.init enStrategies ⟨10, 2, 0⟩
        = .ok ⟨enStrategies, 10, 2, 0⟩
      ∧ (PublicGoodsPayoffMatrix.mk enStrategies 10 2 0).calculate_payoff false 0
        = none :=
  ⟨rfl, rfl⟩

/-- C4 amended: the constructor stores any configuration unchecked — it never
raises — and with `numAgents = 0` every `calculate_payoff` call fails
(`ZeroDivisionError`) at payoff time. -/
theorem init_accepts_any_config (strategies : List (String × String))
    (cfg : PublicGoodsConfig) :
    PublicGoodsPayoffMatrix.init strategies cfg
        = .ok ⟨strategies, cfg.contributionCost, cfg.multiplicationFactor, cfg.numAgents⟩
      ∧ (cfg.numAgents = 0 → ∀ b c,
          (PublicGoodsPayoffMatrix.mk strategies cfg.contributionCost
            cfg.multiplicationFactor cfg.numAgents).calculate_payoff b c = none) :=
  ⟨rfl, fun h b c => by simp [PublicGoodsPayoffMatrix.calculate_payoff, h]⟩

/-- C4 witness: the zero-agent configuration is constructed successfully and
its first payoff call fails. -/
theorem init_accepts_any_config_witness :
    PublicGoodsPayoffMatrix.init enStrategies ⟨10, 2, 0⟩
        = .ok ⟨enStrategies, 10, 2, 0⟩
      ∧ (PublicGoodsPayoffMatrix.mk enStrategies 10 2 0).calculate_payoff true 1
        = none :=
  ⟨(init_accepts_any_config enStrategies ⟨10, 2, 0⟩).1,
    (init_accepts_any_config enStrategies ⟨10, 2, 0⟩).2 rfl true 1⟩

/-- C3 counterexample: under persistent rate-limit failures `send_prompt`
does not keep retrying: with the default `max_retries = 5` the fifth
consecutive rate-limit failure is raised to the caller, for the Anthropic and
the OpenAI connector alike. -/
theorem unbounded_retry_counterexample :
    (AnthropicConnector.send_prompt 5 1 (fun _ => .rateLimitError)).1
        = .raised .backoffErr
      ∧ (OpenAIConnector.send_prompt 5 1 (fun _ => .rateLimitError)).1
        = .raised .backoffErr :=
  ⟨rfl, rfl⟩

/-- C3 amended: transient failures of `send_prompt` are retried only while
attempts remain: a success within the first `max_retries` attempts after only
transient failures is returned, but the `max_retries`-th consecutive
transient failure is re-raised to the caller (both for the Anthropic and the
OpenAI connector). -/
theorem send_prompt_bounded_retry (mr : ℕ) (d : ℚ) (hmr : 0 < mr) :
    (∀ api : ℕ → AnthropicOutcome,
      ((∀ i, i < mr → ((api i).classify).isTransient = true) →
        (AnthropicConnector.send_prompt mr d api).1
          = .raised ((api (mr - 1)).classify))
      ∧ ∀ j, j < mr → (∀ i, i < j → ((api i).classify).isTransient = true) →
          ∀ s, api j = .ok s →
          (AnthropicConnector.send_prompt mr d api).1 = .success s)
    ∧ (∀ api : ℕ → OpenAIOutcome,
      ((∀ i, i < mr → ((api i).classify).isTransient = true) →
        (OpenAIConnector.send_prompt mr d api).1
          = .raised ((api (mr - 1)).classify))
      ∧ ∀ j, j < mr → (∀ i, i < j → ((api i).classify).isTransient = true) →
          ∀ s, api j = .ok s →
          (OpenAIConnector.send_prompt mr d api).1 = .success s) := by
  constructor
  · intro api
    constructor
    · intro htrans
      have h := (sendLoop_exhaust d (fun n => (api n).classify) mr 0 hmr
        (by intro i hi; rw [Nat.zero_add]; exact htrans i hi)).1
      simp only [AnthropicConnector.send_prompt]
      rw [h, Nat.zero_add]
    · intro j hj htrans s hok
      have h := sendLoop_success d (fun n => (api n).classify) j 0 mr hj
        (by intro i hi; rw [Nat.zero_add]; exact htrans i hi) s
        (by rw [Nat.zero_add]; show (api j).classify = .ok s; rw [hok]; rfl)
      exact h
  · intro api
    constructor
    · intro htrans
      have h := (sendLoop_exhaust d (fun n => (api n).classify) mr 0 hmr
        (by intro i hi; rw [Nat.zero_add]; exact htrans i hi)).1
      simp only [OpenAIConnector.send_prompt]
      rw [h, Nat.zero_add]
    · intro j hj htrans s hok
      have h := sendLoop_success d (fun n => (api n).classify) j 0 mr hj
        (by intro i hi; rw [Nat.zero_add]; exact htrans i hi) s
        (by rw [Nat.zero_add]; show (api j).classify = .ok s; rw [hok]; rfl)
      exact h

/-- C3 witness: five consecutive rate-limit failures are re-raised; two
rate-limit failures followed by a success yield that success. -/
theorem send_prompt_bounded_retry_witness :
    (AnthropicConnector.send_prompt 5 1 (fun _ => .rateLimitError)).1
        = .raised ((AnthropicOutcome.rateLimitError).classify)
      ∧ (OpenAIConnector.send_prompt 5 1
          (fun n => if n < 2 then .rateLimitError else .ok "done")).1
        = .success "done" := by
  constructor
  · exact ((send_prompt_bounded_retry 5 1 (by decide)).1
      (fun _ => .rateLimitError)).1 (by decide)
  · exact ((send_prompt_bounded_retry 5 1 (by decide)).2
      (fun n => if n < 2 then .rateLimitError else .ok "done")).2 2 (by decide)
      (by decide) "done" (by decide)

/-- C6 counterexample: no retry and no wait follow the fifth consecutive
rate-limit failure even though the failure then clears: with the default
`max_retries = 5`, a script of five rate limits followed by success raises
after only four waits. -/
theorem backoff_cap_counterexample :
    (AnthropicConnector.send_prompt 5 1
        (fun n => if n < 5 then .rateLimitError else .ok "late")).1
      = .raised .backoffErr
    ∧ (AnthropicConnector.send_prompt 5 1
        (fun n => if n < 5 then .rateLimitError else .ok "late")).2.length = 4 :=
  ⟨rfl, rfl⟩

/-- C6 amended: for `k < max_retries - 1` the wait before the retry that
follows the `k`-th consecutive transient failure (`k` the attempt counter,
shared across error classes and never reset) equals `base_delay * 2 ^ k` when
that failure is a rate limit — uncapped, no `max_backoff` exists — and the
constant `base_delay` for the other transient classes; after the last attempt
no wait follows: `max_retries` consecutive transient failures produce exactly
`max_retries - 1` waits.  Holds for the Anthropic, OpenAI and Mistral
connectors. -/
theorem backoff_wait_formula (mr : ℕ) (d : ℚ) (k : ℕ) (hk : k + 1 < mr) :
    (∀ api : ℕ → AnthropicOutcome,
      (∀ i, i ≤ k → ((api i).classify).isTransient = true) →
      (AnthropicConnector.send_prompt mr d api).2[k]?
        = some (if api k = .rateLimitError then d * 2 ^ k else d))
    ∧ (∀ api : ℕ → OpenAIOutcome,
      (∀ i, i ≤ k → ((api i).classify).isTransient = true) →
      (OpenAIConnector.send_prompt mr d api).2[k]?
        = some (if api k = .rateLimitError then d * 2 ^ k else d))
    ∧ (∀ api : ℕ → MistralOutcome,
      (∀ i, i ≤ k → ((api i).classify).isTransient = true) →
      (MistralConnector.send_prompt mr d api).2[k]?
        = some (if api k = .httpError 429 then d * 2 ^ k else d))
    ∧ (∀ api : ℕ → AnthropicOutcome,
      (∀ i, i < mr → ((api i).classify).isTransient = true) →
      (AnthropicConnector.send_prompt mr d api).2.length = mr - 1) := by
  refine ⟨?_, ?_, ?_, ?_⟩
  · intro api htrans
    have h := sendLoop_sleep_formula d (fun n => (api n).classify) k 0 mr hk
      (by intro i hi; rw [Nat.zero_add]; exact htrans i hi)
    rw [Nat.zero_add] at h
    simp only [AnthropicConnector.send_prompt]
    rw [h]
    congr 1
    cases hak : api k <;> simp [AnthropicOutcome.classify, hak]
  · intro api htrans
    have h := sendLoop_sleep_formula d (fun n => (api n).classify) k 0 mr hk
      (by intro i hi; rw [Nat.zero_add]; exact htrans i hi)
    rw [Nat.zero_add] at h
    simp only [OpenAIConnector.send_prompt]
    rw [h]
    congr 1
    cases hak : api k <;> simp [OpenAIOutcome.classify, hak]
  · intro api htrans
    have h := sendLoop_sleep_formula d (fun n => (api n).classify) k 0 mr hk
      (by intro i hi; rw [Nat.zero_add]; exact htrans i hi)
    rw [Nat.zero_add] at h
    simp only [MistralConnector.send_prompt]
    rw [h]
    congr 1
    cases hak : api k with
    | ok t => simp [MistralOutcome.classify, hak]
    | timeoutError => simp [MistralOutcome.classify, hak]
    | connectionError => simp [MistralOutcome.classify, hak]
    | otherException => simp [MistralOutcome.classify, hak]
    | httpError status =>
        by_cases hst : status = 429
        · subst hst
          simp [MistralOutcome.classify, hak]
        · simp [MistralOutcome.classify, hak, hst]
  · intro api htrans
    have h := (sendLoop_exhaust d (fun n => (api n).classify) mr 0 (by omega)
      (by intro i hi; rw [Nat.zero_add]; exact htrans i hi)).2
    simpa [AnthropicConnector.send_prompt] using h

/-- C6 witness: at `max_retries = 5`, `base_delay = 1`: the wait after a
rate-limit failure at attempt 1 (attempt 0 having failed with a plain API
error) is `1 * 2 ^ 1`; the Mistral wait after an HTTP-429 failure at attempt
1 is the same; five rate-limit failures produce four waits. -/
theorem backoff_wait_formula_witness :
    (AnthropicConnector.send_prompt 5 1
        (fun n => if n = 0 then .apiError else .rateLimitError)).2[1]?
      = some (if (if (1 : ℕ) = 0 then AnthropicOutcome.apiError else .rateLimitError)
            = .rateLimitError then (1 : ℚ) * 2 ^ 1 else 1)
    ∧ (MistralConnector.send_prompt 5 1 (fun _ => .httpError 429)).2[1]?
      = some (if (MistralOutcome.httpError 429) = .httpError 429
            then (1 : ℚ) * 2 ^ 1 else 1)
    ∧ (AnthropicConnector.send_prompt 5 1 (fun _ => .rateLimitError)).2.length
      = 5 - 1 := by
  refine ⟨?_, ?_, ?_⟩
  · exact (backoff_wait_formula 5 1 1 (by decide)).1
      (fun n => if n = 0 then .apiError else .rateLimitError) (by decide)
  · exact (backoff_wait_formula 5 1 1 (by decide)).2.2.1
      (fun _ => .httpError 429) (by decide)
  · exact (backoff_wait_formula 5 1 1 (by decide)).2.2.2
      (fun _ => .rateLimitError) (by decide)

/-- C8: each provider connector constructor fails immediately with the
authentication error (`EnvironmentError` in the code, the spec's
`AuthenticationError`) when the provider-specific credential variable is
absent from the environment; no connector value is produced, so no prompt can
be sent and no game logic runs. -/
theorem init_requires_credentials (env : String → Option String) (pm : String) :
    (env "API_KEY_ANTHROPIC" = none →
      AnthropicConnector.init env pm = .error
        (.environmentError "API_KEY_ANTHROPIC not found in environment variables."))
    ∧ (env "API_KEY_OPENAI" = none →
      OpenAIConnector.init env pm = .error
        (.environmentError "API_KEY_OPENAI not found in environment variables."))
    ∧ (env "API_KEY_MISTRAL" = none →
      MistralConnector.init env pm = .error
        (.environmentError "API_KEY_MISTRAL not found in environment variables.")) := by
  refine ⟨fun h => ?_, fun h => ?_, fun h => ?_⟩
  · simp [AnthropicConnector.init, h]
  · simp [OpenAIConnector.init, h]
  · simp [MistralConnector.init, h]

/-- C8 witness: an empty environment makes all three constructors fail. -/
theorem init_requires_credentials_witness :
    AnthropicConnector.init (fun _ => none) "m" = .error
        (.environmentError "API_KEY_ANTHROPIC not found in environment variables.")
      ∧ OpenAIConnector.init (fun _ => none) "m" = .error
        (.environmentError "API_KEY_OPENAI not found in environment variables.")
      ∧ MistralConnector.init (fun _ => none) "m" = .error
        (.environmentError "API_KEY_MISTRAL not found in environment variables.") :=
  ⟨(init_requires_credentials (fun _ => none) "m").1 rfl,
    (init_requires_credentials (fun _ => none) "m").2.1 rfl,
    (init_requires_credentials (fun _ => none) "m").2.2 rfl⟩

end FairGame
